import Mathlib

/-!
Verification of the bridge OpenAI-compatible gateway (`src/main.py`).

The development shallowly embeds the pure content of the gateway:

* Python text values are `List Char`; byte strings are `List Nat`.
* `bytes.decode("utf-8", errors="replace")` is `decodeUtf8Replace`,
  following the WHATWG UTF-8 decoder (which is what CPython's
  `errors="replace"` handler implements: maximal-subpart replacement).
* `json.loads` is `jsonLoads`, a strict JSON parser matching the stdlib
  decoder: the four JSON whitespace characters, strict strings (unescaped
  control characters rejected, `\uXXXX` escapes with surrogate-pair
  combation), no leading zeros in numbers, and the CPython extensions
  `NaN` / `Infinity` / `-Infinity`.  Numbers are represented exactly as
  rationals; lone `\u` surrogates (which CPython keeps as unpaired
  code units) are collapsed by `Char.ofNat`, a corner no claim touches.
* Python `dict.get` on an arbitrary decoded value is `pyGet`: it succeeds
  only on objects (`AttributeError`, i.e. `.error`, otherwise), and on
  duplicate keys `json.loads` keeps the last binding, hence `lookupLast`.
* The nondeterministic `uuid.uuid4()` / `datetime.now()` values are
  parameters: the generator computes them once per exchange, so they are
  fields of `StreamParams`.
-/

set_option maxRecDepth 16384

/-- The six ASCII whitespace characters removed by Python `str.strip()`
(the inputs reaching `strip` in this program are ASCII). -/
def pySpace (c : Char) : Bool :=
  c = ' ' ∨ c = '\t' ∨ c = '\n' ∨ c = '\r' ∨ c = Char.ofNat 11 ∨ c = Char.ofNat 12

/-- Python `str.strip()`: drop whitespace from both ends. -/
def pyStrip (s : List Char) : List Char :=
  ((s.dropWhile pySpace).reverse.dropWhile pySpace).reverse

/-- Opening curly brace character. -/
def lbrace : Char := Char.ofNat 123

/-- Closing curly brace character. -/
def rbrace : Char := Char.ofNat 125

/-- Decoded JSON values, as produced by `json.loads`.  Numbers are exact
rationals; `nan` and `inf` model the CPython extensions `NaN`,
`Infinity` and `-Infinity`. -/
inductive JsonValue where
  | null
  | bool (b : Bool)
  | num (q : ℚ)
  | str (s : List Char)
  | arr (items : List JsonValue)
  | obj (fields : List (List Char × JsonValue))
  | nan
  | inf (neg : Bool)

/-- Lookup in an object's field list; on duplicate keys `json.loads`
keeps the last binding, so the last match wins. -/
def lookupLast (fields : List (List Char × JsonValue)) (key : List Char) : Option JsonValue :=
  fields.foldl (fun acc kv => if kv.1 = key then some kv.2 else acc) none

/-- Total object lookup used on the specification side: `none` unless the
value is an object carrying the key. -/
def jLookup : JsonValue → List Char → Option JsonValue
  | .obj fields, key => lookupLast fields key
  | _, _ => none

/-- Python `dict.get(key, default)` applied to a decoded JSON value.
On anything but a dict the attribute access raises (`AttributeError`),
modelled as `.error`. -/
def pyGet (v : JsonValue) (key : List Char) (dflt : JsonValue) : Except Unit JsonValue :=
  match v with
  | .obj fields => .ok ((lookupLast fields key).getD dflt)
  | _ => .error ()

/-- Python truthiness of a decoded JSON value. -/
def pyTruthy : JsonValue → Bool
  | .null => false
  | .bool b => b
  | .num q => decide (q ≠ 0)
  | .str s => !s.isEmpty
  | .arr items => !items.isEmpty
  | .obj fields => !fields.isEmpty
  | .nan => true
  | .inf _ => true

/-- Python `v[0]` on a decoded JSON value: first element of a list, or a
one-character string of a string; everything else raises
(`IndexError` / `KeyError` / `TypeError`), modelled as `.error`. -/
def pyIndex0 : JsonValue → Except Unit JsonValue
  | .arr (x :: _) => .ok x
  | .str (c :: _) => .ok (.str [c])
  | _ => .error ()

/-- JSON whitespace accepted between tokens by `json.loads`. -/
def jsonWs (c : Char) : Bool :=
  c = ' ' ∨ c = '\t' ∨ c = '\n' ∨ c = '\r'

/-- Skip JSON whitespace. -/
def skipWs (s : List Char) : List Char := s.dropWhile jsonWs

/-- Value of a hex digit. -/
def hexVal (c : Char) : Option Nat :=
  if '0' ≤ c ∧ c ≤ '9' then some (c.toNat - 48)
  else if 'a' ≤ c ∧ c ≤ 'f' then some (c.toNat - 87)
  else if 'A' ≤ c ∧ c ≤ 'F' then some (c.toNat - 55)
  else none

/-- Consume exactly four hex digits. -/
def takeHex4 : List Char → Option (Nat × List Char)
  | a :: b :: c :: d :: rest => do
    let va ← hexVal a
    let vb ← hexVal b
    let vc ← hexVal c
    let vd ← hexVal d
    pure (va * 4096 + vb * 256 + vc * 16 + vd, rest)
  | _ => none

/-- Single-character string escapes of JSON. -/
def escChar (e : Char) : Option Char :=
  if e = '"' then some '"'
  else if e = '\\' then some '\\'
  else if e = '/' then some '/'
  else if e = 'b' then some (Char.ofNat 8)
  else if e = 'f' then some (Char.ofNat 12)
  else if e = 'n' then some '\n'
  else if e = 'r' then some '\r'
  else if e = 't' then some '\t'
  else none

/-- Body of a JSON string, after the opening quote.  Strict mode: an
unescaped control character is a decode error.  A `\uXXXX` high
surrogate followed by a low surrogate combines into one scalar. -/
def parseStrBody : Nat → List Char → Option (List Char × List Char)
  | 0, _ => none
  | fuel + 1, s =>
    match s with
    | [] => none
    | c :: rest =>
      if c = '"' then some ([], rest)
      else if c = '\\' then
        match rest with
        | [] => none
        | 'u' :: r2 =>
          match takeHex4 r2 with
          | none => none
          | some (n, r3) =>
            if 0xD800 ≤ n ∧ n ≤ 0xDBFF then
              match r3 with
              | '\\' :: 'u' :: r4 =>
                match takeHex4 r4 with
                | some (n2, r5) =>
                  if 0xDC00 ≤ n2 ∧ n2 ≤ 0xDFFF then
                    (parseStrBody fuel r5).map
                      (fun p => (Char.ofNat (0x10000 + (n - 0xD800) * 0x400 + (n2 - 0xDC00)) :: p.1, p.2))
                  else (parseStrBody fuel r3).map (fun p => (Char.ofNat n :: p.1, p.2))
                | none => (parseStrBody fuel r3).map (fun p => (Char.ofNat n :: p.1, p.2))
              | _ => (parseStrBody fuel r3).map (fun p => (Char.ofNat n :: p.1, p.2))
            else (parseStrBody fuel r3).map (fun p => (Char.ofNat n :: p.1, p.2))
        | e :: r2 =>
          match escChar e with
          | some ch => (parseStrBody fuel r2).map (fun p => (ch :: p.1, p.2))
          | none => none
      else if c.toNat < 0x20 then none
      else (parseStrBody fuel rest).map (fun p => (c :: p.1, p.2))

/-- Digits to a natural number. -/
def digitsToNat (ds : List Char) : Nat :=
  ds.foldl (fun a c => a * 10 + (c.toNat - 48)) 0

/-- Assemble a parsed JSON number `(-)ip.fd e±e` as an exact rational. -/
def mkNum (neg : Bool) (ip fd : List Char) (eneg : Bool) (e : Nat) : JsonValue :=
  let m0 : Int := Int.ofNat (digitsToNat ip * 10 ^ fd.length + digitsToNat fd)
  let m : Int := if neg then -m0 else m0
  let ex : Int := (if eneg then -(Int.ofNat e) else Int.ofNat e) - Int.ofNat fd.length
  if 0 ≤ ex then .num ((m * 10 ^ ex.toNat : Int) : ℚ)
  else .num (mkRat m (10 ^ (-ex).toNat))

/-- Optional exponent of a JSON number, then assembly. -/
def parseExpPart (neg : Bool) (ip fd : List Char) (s : List Char) : Option (JsonValue × List Char) :=
  match s with
  | c :: r =>
    if c = 'e' ∨ c = 'E' then
      let p : Bool × List Char :=
        match r with
        | '+' :: rr => (false, rr)
        | '-' :: rr => (true, rr)
        | _ => (false, r)
      let ed := p.2.takeWhile Char.isDigit
      if ed = [] then none
      else some (mkNum neg ip fd p.1 (digitsToNat ed), p.2.dropWhile Char.isDigit)
    else some (mkNum neg ip fd false 0, c :: r)
  | [] => some (mkNum neg ip fd false 0, [])

/-- JSON number grammar: optional minus, integer part without leading
zeros, optional fraction, optional exponent. -/
def parseNum (s : List Char) : Option (JsonValue × List Char) :=
  let q : Bool × List Char :=
    match s with
    | '-' :: r => (true, r)
    | _ => (false, s)
  let ip := q.2.takeWhile Char.isDigit
  let r1 := q.2.dropWhile Char.isDigit
  if ip = [] then none
  else if 1 < ip.length ∧ ip.headD '0' = '0' then none
  else
    match r1 with
    | '.' :: r =>
      let fd := r.takeWhile Char.isDigit
      if fd = [] then none
      else parseExpPart q.1 ip fd (r.dropWhile Char.isDigit)
    | _ => parseExpPart q.1 ip [] r1

mutual

/-- One JSON value, fuelled.  Mirrors the stdlib decoder's dispatch,
including the `NaN` / `Infinity` / `-Infinity` constants it accepts. -/
def parseVal : Nat → List Char → Option (JsonValue × List Char)
  | 0, _ => none
  | fuel + 1, s0 =>
    let s := skipWs s0
    if ("true").data.isPrefixOf s then some (.bool true, s.drop 4)
    else if ("false").data.isPrefixOf s then some (.bool false, s.drop 5)
    else if ("null").data.isPrefixOf s then some (.null, s.drop 4)
    else if ("NaN").data.isPrefixOf s then some (.nan, s.drop 3)
    else if ("Infinity").data.isPrefixOf s then some (.inf false, s.drop 8)
    else if ("-Infinity").data.isPrefixOf s then some (.inf true, s.drop 9)
    else
      match s with
      | [] => none
      | c :: rest =>
        if c = '"' then (parseStrBody (rest.length + 1) rest).map (fun p => (.str p.1, p.2))
        else if c = lbrace then
          match skipWs rest with
          | c2 :: r2 =>
            if c2 = rbrace then some (.obj [], r2)
            else (parseObjRest fuel (c2 :: r2)).map (fun p => (.obj p.1, p.2))
          | [] => none
        else if c = '[' then
          match skipWs rest with
          | ']' :: r2 => some (.arr [], r2)
          | r => (parseArrRest fuel r).map (fun p => (.arr p.1, p.2))
        else if c = '-' ∨ c.isDigit then parseNum (c :: rest)
        else none

/-- Elements of a JSON array after the opening bracket (nonempty case). -/
def parseArrRest : Nat → List Char → Option (List JsonValue × List Char)
  | 0, _ => none
  | fuel + 1, s =>
    match parseVal fuel s with
    | none => none
    | some (v, r) =>
      match skipWs r with
      | ',' :: r2 => (parseArrRest fuel r2).map (fun p => (v :: p.1, p.2))
      | ']' :: r2 => some ([v], r2)
      | _ => none

/-- Members of a JSON object after the opening brace (nonempty case). -/
def parseObjRest : Nat → List Char → Option (List (List Char × JsonValue) × List Char)
  | 0, _ => none
  | fuel + 1, s =>
    match skipWs s with
    | '"' :: r =>
      match parseStrBody (r.length + 1) r with
      | none => none
      | some (key, r2) =>
        match skipWs r2 with
        | ':' :: r3 =>
          match parseVal fuel r3 with
          | none => none
          | some (v, r4) =>
            match skipWs r4 with
            | ',' :: r5 => (parseObjRest fuel r5).map (fun p => ((key, v) :: p.1, p.2))
            | cb :: r5 => if cb = rbrace then some ([(key, v)], r5) else none
            | [] => none
        | _ => none
    | _ => none

end

/-- Python `json.loads`: one value, then only whitespace may remain
("Extra data" otherwise). -/
def jsonLoads (s : List Char) : Option JsonValue :=
  match parseVal (2 * s.length + 8) s with
  | some (v, r) => if skipWs r = [] then some v else none
  | none => none

/-- The replacement character emitted for undecodable bytes. -/
def replacementChar : Char := Char.ofNat 0xFFFD

/-- State of the WHATWG UTF-8 decoder: how many continuation bytes are
still needed, the partial code point, and the admissible range for the
next continuation byte. -/
structure Utf8State where
  needed : Nat
  cp : Nat
  lower : Nat
  upper : Nat

/-- Initial decoder state. -/
def utf8Init : Utf8State := ⟨0, 0, 0x80, 0xBF⟩

/-- Handle one byte in the start state. -/
def utf8StartByte (b : Nat) : Utf8State × List Char :=
  if b ≤ 0x7F then (utf8Init, [Char.ofNat b])
  else if 0xC2 ≤ b ∧ b ≤ 0xDF then (⟨1, b % 0x20, 0x80, 0xBF⟩, [])
  else if 0xE0 ≤ b ∧ b ≤ 0xEF then
    (⟨2, b % 0x10, if b = 0xE0 then 0xA0 else 0x80, if b = 0xED then 0x9F else 0xBF⟩, [])
  else if 0xF0 ≤ b ∧ b ≤ 0xF4 then
    (⟨3, b % 8, if b = 0xF0 then 0x90 else 0x80, if b = 0xF4 then 0x8F else 0xBF⟩, [])
  else (utf8Init, [replacementChar])

/-- Handle one byte in any state; an invalid continuation byte emits a
replacement character and is reprocessed as a start byte. -/
def utf8Step (st : Utf8State) (b : Nat) : Utf8State × List Char :=
  if st.needed = 0 then utf8StartByte b
  else if st.lower ≤ b ∧ b ≤ st.upper then
    let cp := st.cp * 64 + (b % 64)
    if st.needed = 1 then (utf8Init, [Char.ofNat cp])
    else (⟨st.needed - 1, cp, 0x80, 0xBF⟩, [])
  else
    let q := utf8StartByte b
    (q.1, replacementChar :: q.2)

/-- Python `bytes.decode("utf-8", errors="replace")`: decode one
fragment, flushing a trailing incomplete sequence as one replacement
character.  The program calls this per network fragment, with no state
carried across fragments. -/
def decodeUtf8Replace (bytes : List Nat) : List Char :=
  let p := bytes.foldl
    (fun (acc : Utf8State × List Char) b =>
      let q := utf8Step acc.1 b
      (q.1, acc.2 ++ q.2))
    (utf8Init, [])
  if p.1.needed = 0 then p.2 else p.2 ++ [replacementChar]

/-- ASCII bytes of a string literal, for writing concrete byte streams. -/
def strBytes (s : String) : List Nat := s.data.map Char.toNat

/-- The SSE event marker `"data: "`. -/
def dataMarker : List Char := ("data: ").data

/-- The termination token `"[DONE]"`. -/
def doneMarker : List Char := ("[DONE]").data

/-- The per-exchange values of `bridge_request_stream` fixed after the
handshake: the fallback chunk id (`f"chatcmpl-..."`), the fallback
creation timestamp, and the caller's requested model.  `chunk_id` and
`created` are computed exactly once, before the read loop. -/
structure StreamParams where
  chunkId : List Char
  created : Int
  request_model : List Char

/-- One public chunk as built by `bridge_request_stream`: the dict
`openai_chunk` with its single `choices` element inlined
(`index` is the constant 0). -/
structure OpenAIChunk where
  id : JsonValue
  object : List Char
  created : JsonValue
  model : List Char
  delta : JsonValue
  finish_reason : JsonValue

/-- Build `openai_chunk` from a decoded backend event.  `flushing` is
true on the tail path after upstream close, where the code hardcodes
`"finish_reason": None`.  Mirrors the `try:` body: any non-dict access
raises (uncaught `AttributeError`/`TypeError`), modelled as `.error`. -/
def mkChunkCore (p : StreamParams) (chunk_data : JsonValue) (flushing : Bool) :
    Except Unit OpenAIChunk := do
  let choices ← pyGet chunk_data (("choices").data) (.arr [.obj []])
  let delta ←
    if pyTruthy choices then do
      let c0 ← pyIndex0 choices
      pyGet c0 (("delta").data) (.obj [])
    else pure (JsonValue.obj [])
  let idv ← pyGet chunk_data (("id").data) (.str p.chunkId)
  let createdv ← pyGet chunk_data (("created").data) (.num (p.created : ℚ))
  let fr ←
    if flushing then pure JsonValue.null
    else pyGet chunk_data (("finish_reason").data) .null
  pure ⟨idv, ("chat.completion.chunk").data, createdv, p.request_model, delta, fr⟩

/-- What processing one complete extracted line does. -/
inductive LineResult where
  | skip
  | done
  | crash
  | emit (c : OpenAIChunk)

/-- One iteration of the inner `while` body of `bridge_request_stream`
on an extracted line: strip, drop non-`"data: "` lines, detect the
terminator, otherwise decode and map; `json.JSONDecodeError` is caught
(`skip`), any other exception escapes (`crash`). -/
def processLine (p : StreamParams) (rawLine : List Char) : LineResult :=
  let line := pyStrip rawLine
  if line.isEmpty ∨ ¬ dataMarker.isPrefixOf line then .skip
  else
    let dataStr := pyStrip (line.drop 6)
    if dataStr = doneMarker then .done
    else
      match jsonLoads dataStr with
      | none => .skip
      | some v =>
        match mkChunkCore p v false with
        | .ok c => .emit c
        | .error _ => .crash

/-- Split a text into its complete (newline-terminated) lines and the
trailing remainder, exactly as the `while "\n" in buffer` loop does. -/
def splitLines : List Char → List (List Char) × List Char
  | [] => ([], [])
  | c :: cs =>
    let q := splitLines cs
    if c = '\n' then ([] :: q.1, q.2)
    else
      match q.1 with
      | l :: ls => ((c :: l) :: ls, q.2)
      | [] => ([], c :: q.2)

/-- What the generator emits downstream. -/
inductive StreamOut where
  | chunk (c : OpenAIChunk)
  | done

/-- How a run over a list of complete lines ended. -/
inductive LinesStop where
  | ran
  | done
  | crashed

/-- Process extracted lines in order: emitted outputs plus how the loop
ended (`ran` = all lines consumed, `done` = terminator seen and the
generator returned, `crashed` = uncaught exception). -/
def processLines (p : StreamParams) : List (List Char) → List StreamOut × LinesStop
  | [] => ([], .ran)
  | l :: ls =>
    match processLine p l with
    | .skip => processLines p ls
    | .done => ([.done], .done)
    | .crash => ([], .crashed)
    | .emit c =>
      let r := processLines p ls
      (.chunk c :: r.1, r.2)

/-- Result of a whole streaming exchange: the emitted outputs, and
whether the generator aborted with an uncaught exception. -/
structure RunResult where
  outs : List StreamOut
  crashed : Bool

/-- The post-loop tail of `bridge_request_stream`: if the buffered
remainder is a nonempty non-terminator `"data: "` line, decode and emit
it with a forced-null finish reason, then yield the final terminator. -/
def flushTail (p : StreamParams) (buffer : List Char) : RunResult :=
  let b := pyStrip buffer
  if dataMarker.isPrefixOf b then
    let dataStr := pyStrip (b.drop 6)
    if ¬ dataStr.isEmpty ∧ dataStr ≠ doneMarker then
      match jsonLoads dataStr with
      | some v =>
        match mkChunkCore p v true with
        | .ok c => ⟨[.chunk c, .done], false⟩
        | .error _ => ⟨[], true⟩
      | none => ⟨[.done], false⟩
    else ⟨[.done], false⟩
  else ⟨[.done], false⟩

/-- The `async for chunk in resp.content` loop over decoded text
fragments, threading the partial-line buffer, then the tail flush. -/
def runFrags (p : StreamParams) : List (List Char) → List Char → RunResult
  | [], buffer => flushTail p buffer
  | f :: fs, buffer =>
    if f.isEmpty then runFrags p fs buffer
    else
      let d := splitLines (buffer ++ f)
      let r := processLines p d.1
      match r.2 with
      | .ran =>
        let rest := runFrags p fs d.2
        ⟨r.1 ++ rest.outs, rest.crashed⟩
      | .done => ⟨r.1, false⟩
      | .crashed => ⟨r.1, true⟩

/-- Reference run over the whole concatenated text at once. -/
def runOnText (p : StreamParams) (t : List Char) : RunResult :=
  let d := splitLines t
  let r := processLines p d.1
  match r.2 with
  | .ran =>
    let rest := flushTail p d.2
    ⟨r.1 ++ rest.outs, rest.crashed⟩
  | .done => ⟨r.1, false⟩
  | .crashed => ⟨r.1, true⟩

/-- `bridge_request_stream` after a successful handshake, over already
decoded text fragments. -/
def bridge_request_stream_text (p : StreamParams) (frags : List (List Char)) : RunResult :=
  runFrags p frags []

/-- `bridge_request_stream` after a successful handshake, over the raw
byte fragments delivered by the backend: each fragment is decoded
independently with replacement, as the code does. -/
def bridge_request_stream_run (p : StreamParams) (frags : List (List Nat)) : RunResult :=
  bridge_request_stream_text p (frags.map decodeUtf8Replace)

/-- One public response as built by `transform_response_to_openai`: the
returned dict with its single choice and usage dict inlined (`index` 0
and the message `role` `"assistant"` are constants). -/
structure OpenAIResponse where
  id : JsonValue
  object : List Char
  created : JsonValue
  model : List Char
  content : JsonValue
  finish_reason : List Char
  prompt_tokens : JsonValue
  completion_tokens : JsonValue
  total_tokens : JsonValue

/-- `transform_response_to_openai(bridge_data, request_model)`.  The
fresh fallback id (`f"chatcmpl-{uuid4().hex}"`) and timestamp generated
inside the function are the parameters `fresh_id` / `now_ts`.  A `.get`
on a non-dict raises (uncaught), modelled as `.error`. -/
def transform_response_to_openai (bridge_data : JsonValue) (request_model : List Char)
    (fresh_id : List Char) (now_ts : Int) : Except Unit OpenAIResponse := do
  let choices ← pyGet bridge_data (("choices").data) (.arr [])
  let message_content ←
    if pyTruthy choices then do
      let c0 ← pyIndex0 choices
      let msg ← pyGet c0 (("message").data) (.obj [])
      pyGet msg (("content").data) (.str [])
    else pure (JsonValue.str [])
  let usage ← pyGet bridge_data (("usage").data) (.obj [])
  let idv ← pyGet bridge_data (("id").data) (.str fresh_id)
  let createdv ← pyGet bridge_data (("created").data) (.num (now_ts : ℚ))
  let pt ← pyGet usage (("prompt_tokens").data) (.num 0)
  let ct ← pyGet usage (("completion_tokens").data) (.num 0)
  let tt ← pyGet usage (("total_tokens").data) (.num 0)
  pure ⟨idv, ("chat.completion").data, createdv, request_model,
        message_content, ("stop").data, pt, ct, tt⟩

/-- An `HTTPException`: status code and detail text. -/
structure HttpError where
  status : Nat
  detail : List Char

/-- Python truthiness of `x_api_key and x_api_key.strip()`. -/
def optNonEmptyAfterStrip : Option (List Char) → Bool
  | some k => !k.isEmpty && !(pyStrip k).isEmpty
  | none => false

/-- Python truthiness of `authorization and authorization.startswith("Bearer ")`. -/
def optHasBearer : Option (List Char) → Bool
  | some a => !a.isEmpty && (("Bearer ").data).isPrefixOf a
  | none => false

/-- `get_api_key(authorization, x_api_key)`.  The module global
`DEFAULT_API_KEY` (read inside the function) is passed explicitly. -/
def get_api_key (authorization x_api_key : Option (List Char))
    (default_api_key : List Char) : Except HttpError (List Char) :=
  if optNonEmptyAfterStrip x_api_key then .ok (pyStrip (x_api_key.getD []))
  else if optHasBearer authorization then .ok (pyStrip ((authorization.getD []).drop 7))
  else if !default_api_key.isEmpty then .ok default_api_key
  else .error ⟨401, ("API key is required (Authorization: Bearer <key> or X-API-Key)").data⟩

/-- A public chat message as validated by the `ChatMessage` model. -/
structure ChatMessage where
  role : List Char
  content : List Char
  name : Option (List Char)

/-- The `stop` request field, `Union[str, List[str]]`. -/
inductive StopSpec where
  | one (s : List Char)
  | many (ss : List (List Char))

/-- A validated `ChatCompletionRequest`.  Numeric sampling parameters are
carried as exact rationals; only their presence matters here. -/
structure ChatCompletionRequest where
  model : List Char
  messages : List ChatMessage
  temperature : Option ℚ
  top_p : Option ℚ
  n : Option Int
  stream : Option Bool
  stop : Option StopSpec
  max_tokens : Option Int
  presence_penalty : Option ℚ
  frequency_penalty : Option ℚ
  user : Option (List Char)

/-- A backend message: role and content only (`name` has no slot). -/
structure BridgeMessage where
  role : List Char
  content : List Char

/-- The dict `payload` built by `bridge_request_json` /
`bridge_request_stream`.  `temperature` and `max_tokens` are present
exactly when not `None`; `extra` holds the `**extra` keyword arguments
whose values are not `None` (both call sites pass none). -/
structure BackendPayload where
  messages : List BridgeMessage
  model : List Char
  stream : Bool
  temperature : Option ℚ
  max_tokens : Option Int
  extra : List (List Char × ℚ)

/-- The set of keys of the `payload` dict, in insertion order. -/
def payloadKeys (p : BackendPayload) : List (List Char) :=
  [("messages").data, ("model").data, ("stream").data]
    ++ (match p.temperature with
        | some _ => [("temperature").data]
        | none => [])
    ++ (match p.max_tokens with
        | some _ => [("max_tokens").data]
        | none => [])
    ++ p.extra.map Prod.fst

/-- Payload construction shared by `bridge_request_json` (lines 98-107)
and `bridge_request_stream` (lines 134-143): `model` is always the
process-wide `BRIDGE_MODEL`, and `payload.update` keeps only non-`None`
extras. -/
def build_bridge_payload (bridge_model : List Char) (messages : List BridgeMessage)
    (stream : Bool) (temperature : Option ℚ) (max_tokens : Option Int)
    (extra : List (List Char × Option ℚ)) : BackendPayload :=
  ⟨messages, bridge_model, stream, temperature, max_tokens,
   extra.filterMap (fun kv => kv.2.map (fun v => (kv.1, v)))⟩

/-- Python truthiness of `request.stream : Optional[bool]`. -/
def optBoolTruthy : Option Bool → Bool
  | some b => b
  | none => false

/-- The backend payload produced by `create_chat_completion` for a
request: messages reduced to role/content, then either the streaming
call (which forces `stream=True`) or the JSON call with `stream=False`;
both forward only `temperature` and `max_tokens`, with no extras. -/
def create_chat_completion_payload (bridge_model : List Char)
    (req : ChatCompletionRequest) : BackendPayload :=
  let msgs := req.messages.map (fun m => BridgeMessage.mk m.role m.content)
  if optBoolTruthy req.stream then
    build_bridge_payload bridge_model msgs true req.temperature req.max_tokens []
  else
    build_bridge_payload bridge_model msgs false req.temperature req.max_tokens []

/-- The status check of `bridge_request_json` (lines 111-114): on a
status other than 200/201 the call raises an `HTTPException` carrying
the upstream status and `err_text or "Bridge error"`; the
`[:500]` truncation is applied only to the log line. -/
def bridge_request_json_check (status : Nat) (err_text : List Char) : Option HttpError :=
  if status ≠ 200 ∧ status ≠ 201 then
    some ⟨status, if err_text.isEmpty then ("Bridge error").data else err_text⟩
  else none

/-- The identical status check of `bridge_request_stream` (lines
147-150), performed on the handshake before any byte is read. -/
def bridge_request_stream_check (status : Nat) (err_text : List Char) : Option HttpError :=
  if status ≠ 200 ∧ status ≠ 201 then
    some ⟨status, if err_text.isEmpty then ("Bridge error").data else err_text⟩
  else none

/-- Whether a stream output is the terminator. -/
def isDone : StreamOut → Bool
  | .done => true
  | .chunk _ => false

/-- Number of termination lines among the emitted outputs. -/
def doneCount (l : List StreamOut) : Nat := l.countP isDone

/-- A decoded streaming event is well-shaped when mapping it cannot
raise: it is a JSON object, and its (defaulted) `choices` value, when
truthy, is a nonempty array whose first element is an object. -/
def wellShapedEvent (v : JsonValue) : Bool :=
  match v with
  | .obj _ =>
    let choices := (jLookup v (("choices").data)).getD (.arr [.obj []])
    if pyTruthy choices then
      match choices with
      | .arr (.obj _ :: _) => true
      | _ => false
    else true
  | _ => false

/-- Claim-side description of the public chunk built from a decoded
event: `id`/`created` default to the per-exchange locally generated
values, `model` echoes the requested model, `delta` comes from the
first element of the (defaulted) `choices` value when truthy, and
`finish_reason` is the event's top-level `finish_reason` (absent ⇒
null) — forced to null on the tail-flush path. -/
def chunkSpec (p : StreamParams) (v : JsonValue) (flushing : Bool) : OpenAIChunk :=
  let choices := (jLookup v (("choices").data)).getD (.arr [.obj []])
  { id := (jLookup v (("id").data)).getD (.str p.chunkId)
    object := ("chat.completion.chunk").data
    created := (jLookup v (("created").data)).getD (.num (p.created : ℚ))
    model := p.request_model
    delta :=
      if pyTruthy choices then
        match choices with
        | .arr (c0 :: _) => (jLookup c0 (("delta").data)).getD (.obj [])
        | _ => .obj []
      else .obj []
    finish_reason :=
      if flushing then .null
      else (jLookup v (("finish_reason").data)).getD .null }

/-- A chunk that the exchange with parameters `p` can emit: the image of
some well-shaped decoded event under the field rules. -/
def ChunkFromEvent (p : StreamParams) (c : OpenAIChunk) : Prop :=
  ∃ v fl, wellShapedEvent v = true ∧ c = chunkSpec p v fl

/-- Claim-side content rule of the non-streaming translator: the first
choice's message content when the choices list is nonempty, else the
empty string. -/
def contentSpec (v : JsonValue) : JsonValue :=
  match (jLookup v (("choices").data)).getD (.arr []) with
  | .arr (c0 :: _) =>
    (jLookup ((jLookup c0 (("message").data)).getD (.obj [])) (("content").data)).getD (.str [])
  | _ => .str []

/-- Claim-side usage rule: counters default to zero when absent. -/
def usageSpec (v : JsonValue) (k : List Char) : JsonValue :=
  (jLookup ((jLookup v (("usage").data)).getD (.obj [])) k).getD (.num 0)

/-- Whether a decoded JSON value is an object (a Python dict). -/
def isJsonObj : JsonValue → Bool
  | .obj _ => true
  | _ => false

/-- A backend body is well-shaped for the non-streaming translator when
its translation cannot raise: a JSON object whose truthy `choices` is
an array with an object first element carrying an object (or no)
`message`, and whose `usage`, when present, is an object. -/
def wellShapedBody (v : JsonValue) : Bool :=
  match v with
  | .obj _ =>
    (match (jLookup v (("choices").data)).getD (.arr []) with
     | .arr (.obj fs :: _) =>
       (match lookupLast fs (("message").data) with
        | some m => isJsonObj m
        | none => true)
     | c => !pyTruthy c) &&
    isJsonObj ((jLookup v (("usage").data)).getD (.obj []))
  | _ => false

/-- Claim-side description of the whole public response. -/
def responseSpec (v : JsonValue) (request_model fresh_id : List Char) (now_ts : Int) :
    OpenAIResponse :=
  { id := (jLookup v (("id").data)).getD (.str fresh_id)
    object := ("chat.completion").data
    created := (jLookup v (("created").data)).getD (.num (now_ts : ℚ))
    model := request_model
    content := contentSpec v
    finish_reason := ("stop").data
    prompt_tokens := usageSpec v (("prompt_tokens").data)
    completion_tokens := usageSpec v (("completion_tokens").data)
    total_tokens := usageSpec v (("total_tokens").data) }

/-- Claim-side (amended) backend-status rule: a non-2xx-success status
fails with the identical status and the full error body, with
`"Bridge error"` substituted for an empty body. -/
def backend_error_spec (status : Nat) (err_text : List Char) : Option HttpError :=
  if status = 200 ∨ status = 201 then none
  else some ⟨status, if err_text.isEmpty then ("Bridge error").data else err_text⟩

/-- Claim-side (amended) credential rule: trimmed direct header when it
trims nonempty; else the trimmed bearer remainder whenever the
authorization value bears the `"Bearer "` prefix (possibly empty);
else the default when nonempty; else the Unauthorized error. -/
def resolve_credential_spec (authorization x_api_key : Option (List Char))
    (default_key : List Char) : Except HttpError (List Char) :=
  let direct := (x_api_key.map pyStrip).getD []
  if ¬ direct.isEmpty then .ok direct
  else if (("Bearer ").data).isPrefixOf (authorization.getD []) then
    .ok (pyStrip ((authorization.getD []).drop 7))
  else if ¬ default_key.isEmpty then .ok default_key
  else .error ⟨401, ("API key is required (Authorization: Bearer <key> or X-API-Key)").data⟩

theorem mkChunkCore_ok_of_wellShaped (p : StreamParams) (v : JsonValue) (fl : Bool)
    (h : wellShapedEvent v = true) :
    mkChunkCore p v fl = .ok (chunkSpec p v fl) := by
  cases v with
  | obj fields =>
    simp only [wellShapedEvent, jLookup] at h
    simp only [mkChunkCore, chunkSpec, jLookup, pyGet, Bind.bind, Except.bind,
      Pure.pure, Except.pure]
    by_cases ht : pyTruthy ((lookupLast fields (("choices").data)).getD (.arr [.obj []])) = true
    · simp only [ht, if_true] at h ⊢
      cases hc : (lookupLast fields (("choices").data)).getD (.arr [.obj []]) with
      | arr items =>
        cases items with
        | nil => simp [hc, pyTruthy] at ht
        | cons c0 rest =>
          cases c0 with
          | obj fs0 => cases fl <;> simp [hc, pyIndex0, pyGet]
          | _ => simp [hc] at h
      | _ => simp [hc] at h
    · simp only [ht, if_false, Bool.not_eq_true] at h ⊢
      cases fl <;> simp [ht]
  | null => simp [wellShapedEvent] at h
  | bool b => simp [wellShapedEvent] at h
  | num q => simp [wellShapedEvent] at h
  | str s => simp [wellShapedEvent] at h
  | arr items => simp [wellShapedEvent] at h
  | nan => simp [wellShapedEvent] at h
  | inf n => simp [wellShapedEvent] at h

theorem mkChunkCore_error_of_not_wellShaped (p : StreamParams) (v : JsonValue) (fl : Bool)
    (h : wellShapedEvent v = false) :
    mkChunkCore p v fl = .error () := by
  cases v with
  | obj fields =>
    simp only [wellShapedEvent, jLookup] at h
    simp only [mkChunkCore, jLookup, pyGet, Bind.bind, Except.bind]
    by_cases ht : pyTruthy ((lookupLast fields (("choices").data)).getD (.arr [.obj []])) = true
    · simp only [ht, if_true] at h ⊢
      cases hc : (lookupLast fields (("choices").data)).getD (.arr [.obj []]) with
      | arr items =>
        cases items with
        | nil => simp [hc, pyTruthy] at ht
        | cons c0 rest =>
          cases c0 with
          | obj fs0 => simp [hc] at h
          | null => simp [hc, pyIndex0, pyGet]
          | bool b => simp [hc, pyIndex0, pyGet]
          | num q => simp [hc, pyIndex0, pyGet]
          | str s => simp [hc, pyIndex0, pyGet]
          | arr its => simp [hc, pyIndex0, pyGet]
          | nan => simp [hc, pyIndex0, pyGet]
          | inf n => simp [hc, pyIndex0, pyGet]
      | null => simp [hc, pyIndex0]
      | bool b => simp [hc, pyIndex0]
      | num q => simp [hc, pyIndex0]
      | str s =>
        cases s with
        | nil => simp [hc, pyTruthy] at ht
        | cons a as => simp [hc, pyIndex0, pyGet]
      | obj fs =>
        cases fs with
        | nil => simp [hc, pyTruthy] at ht
        | cons kv rest => simp [hc, pyIndex0]
      | nan => simp [hc, pyIndex0]
      | inf n => simp [hc, pyIndex0]
    · simp only [ht, if_false] at h
      simp at h
  | null => simp [mkChunkCore, pyGet, Bind.bind, Except.bind]
  | bool b => simp [mkChunkCore, pyGet, Bind.bind, Except.bind]
  | num q => simp [mkChunkCore, pyGet, Bind.bind, Except.bind]
  | str s => simp [mkChunkCore, pyGet, Bind.bind, Except.bind]
  | arr items => simp [mkChunkCore, pyGet, Bind.bind, Except.bind]
  | nan => simp [mkChunkCore, pyGet, Bind.bind, Except.bind]
  | inf n => simp [mkChunkCore, pyGet, Bind.bind, Except.bind]

theorem mkChunkCore_ok_inv (p : StreamParams) (v : JsonValue) (fl : Bool) (c : OpenAIChunk)
    (h : mkChunkCore p v fl = .ok c) :
    wellShapedEvent v = true ∧ c = chunkSpec p v fl := by
  cases hw : wellShapedEvent v with
  | true =>
    have := mkChunkCore_ok_of_wellShaped p v fl hw
    rw [this] at h
    exact ⟨rfl, (Except.ok.injEq _ _ ▸ h).symm⟩
  | false =>
    rw [mkChunkCore_error_of_not_wellShaped p v fl hw] at h
    exact absurd h (by simp)

theorem splitLines_no_nl (s : List Char) : ∀ c ∈ (splitLines s).2, c ≠ '\n' := by
  induction s with
  | nil => simp [splitLines]
  | cons c cs ih =>
    by_cases hc : c = '\n'
    · subst hc
      simpa [splitLines] using ih
    · cases hq : (splitLines cs).1 with
      | cons l ls =>
        simpa [splitLines, hc, hq] using ih
      | nil =>
        simp only [splitLines, hq, if_neg hc]
        intro x hx
        rcases List.mem_cons.mp hx with h1 | h2
        · exact h1 ▸ hc
        · exact ih x h2

theorem splitLines_of_no_nl (s : List Char) (h : ∀ c ∈ s, c ≠ '\n') :
    splitLines s = ([], s) := by
  induction s with
  | nil => rfl
  | cons c cs ih =>
    have hc : c ≠ '\n' := h c (by simp)
    have ih2 := ih (fun x hx => h x (by simp [hx]))
    simp [splitLines, ih2, hc]

theorem splitLines_cons (c : Char) (cs : List Char) :
    splitLines (c :: cs) =
      if c = '\n' then ([] :: (splitLines cs).1, (splitLines cs).2)
      else
        match (splitLines cs).1 with
        | l :: ls => ((c :: l) :: ls, (splitLines cs).2)
        | [] => ([], c :: (splitLines cs).2) := rfl

theorem splitLines_append (b g : List Char) :
    splitLines (b ++ g) =
      ((splitLines b).1 ++ (splitLines ((splitLines b).2 ++ g)).1,
       (splitLines ((splitLines b).2 ++ g)).2) := by
  induction b with
  | nil => simp [splitLines]
  | cons c cs ih =>
    rw [List.cons_append, splitLines_cons, splitLines_cons, ih]
    by_cases hc : c = '\n'
    · simp [hc]
    · simp only [if_neg hc]
      cases hq : (splitLines cs).1 with
      | cons l ls => simp [hq]
      | nil =>
        simp only [hq, List.nil_append]
        rw [List.cons_append, splitLines_cons]
        simp only [if_neg hc]

/-- Resume processing after a first batch of lines: if the first batch
ran to completion, continue with the second; otherwise the generator
has already returned. -/
def contLines (p : StreamParams) (r : List StreamOut × LinesStop)
    (ls : List (List Char)) : List StreamOut × LinesStop :=
  match r.2 with
  | .ran =>
    let q := processLines p ls
    (r.1 ++ q.1, q.2)
  | _ => r

theorem processLines_cons (p : StreamParams) (l : List Char) (ls : List (List Char)) :
    processLines p (l :: ls) =
      match processLine p l with
      | .skip => processLines p ls
      | .done => ([.done], .done)
      | .crash => ([], .crashed)
      | .emit c => (.chunk c :: (processLines p ls).1, (processLines p ls).2) := rfl

theorem processLines_append (p : StreamParams) (a b : List (List Char)) :
    processLines p (a ++ b) = contLines p (processLines p a) b := by
  induction a with
  | nil => simp [processLines, contLines]
  | cons l ls ih =>
    rw [List.cons_append, processLines_cons, processLines_cons]
    cases processLine p l with
    | skip => exact ih
    | done => rfl
    | crash => rfl
    | emit c =>
      rw [ih]
      cases hr : (processLines p ls).2 <;>
        simp [contLines, hr]

theorem runFrags_nil (p : StreamParams) (buffer : List Char) :
    runFrags p [] buffer = flushTail p buffer := rfl

theorem runFrags_cons (p : StreamParams) (f : List Char) (fs : List (List Char))
    (buffer : List Char) :
    runFrags p (f :: fs) buffer =
      if f.isEmpty then runFrags p fs buffer
      else
        match (processLines p (splitLines (buffer ++ f)).1).2 with
        | .ran =>
          ⟨(processLines p (splitLines (buffer ++ f)).1).1
             ++ (runFrags p fs (splitLines (buffer ++ f)).2).outs,
           (runFrags p fs (splitLines (buffer ++ f)).2).crashed⟩
        | .done => ⟨(processLines p (splitLines (buffer ++ f)).1).1, false⟩
        | .crashed => ⟨(processLines p (splitLines (buffer ++ f)).1).1, true⟩ := rfl

theorem runOnText_def (p : StreamParams) (t : List Char) :
    runOnText p t =
      match (processLines p (splitLines t).1).2 with
      | .ran =>
        ⟨(processLines p (splitLines t).1).1 ++ (flushTail p (splitLines t).2).outs,
         (flushTail p (splitLines t).2).crashed⟩
      | .done => ⟨(processLines p (splitLines t).1).1, false⟩
      | .crashed => ⟨(processLines p (splitLines t).1).1, true⟩ := rfl

theorem runFrags_eq_runOnText (p : StreamParams) (fs : List (List Char)) :
    ∀ buffer : List Char, (∀ c ∈ buffer, c ≠ '\n') →
      runFrags p fs buffer = runOnText p (buffer ++ fs.flatten) := by
  induction fs with
  | nil =>
    intro buffer hb
    rw [List.flatten_nil, List.append_nil, runFrags_nil, runOnText_def,
        splitLines_of_no_nl buffer hb]
    simp [processLines]
  | cons f fs ih =>
    intro buffer hb
    rw [runFrags_cons]
    by_cases hf : f.isEmpty
    · have hfe : f = [] := by simpa using hf
      subst hfe
      rw [if_pos hf, ih buffer hb]
      simp
    · rw [if_neg hf]
      have hT : buffer ++ (f :: fs).flatten = (buffer ++ f) ++ fs.flatten := by
        simp [List.append_assoc]
      rw [hT, runOnText_def, splitLines_append (buffer ++ f) fs.flatten]
      simp only [processLines_append]
      rw [ih _ (splitLines_no_nl (buffer ++ f)), runOnText_def]
      cases hr : (processLines p (splitLines (buffer ++ f)).1).2 with
      | ran =>
        cases hq : (processLines p (splitLines ((splitLines (buffer ++ f)).2 ++ fs.flatten)).1).2 with
        | ran => simp [contLines, hr, hq, List.append_assoc]
        | done => simp [contLines, hr, hq]
        | crashed => simp [contLines, hr, hq]
      | done => simp [contLines, hr]
      | crashed => simp [contLines, hr]

theorem stream_text_eq_runOnText (p : StreamParams) (frags : List (List Char)) :
    bridge_request_stream_text p frags = runOnText p frags.flatten := by
  have h := runFrags_eq_runOnText p frags [] (by simp)
  simpa [bridge_request_stream_text] using h

theorem processLines_done_shape (p : StreamParams) (ls : List (List Char)) :
    ((processLines p ls).2 ≠ LinesStop.done → doneCount (processLines p ls).1 = 0) ∧
    ((processLines p ls).2 = LinesStop.done →
      ∃ cs, (processLines p ls).1 = cs ++ [StreamOut.done] ∧ doneCount cs = 0) := by
  induction ls with
  | nil =>
    refine ⟨fun _ => rfl, fun h => ?_⟩
    cases h
  | cons l ls ih =>
    rw [processLines_cons]
    cases processLine p l with
    | skip => exact ih
    | done =>
      refine ⟨fun h => absurd rfl h, fun _ => ⟨[], rfl, rfl⟩⟩
    | crash =>
      refine ⟨fun _ => rfl, fun h => ?_⟩
      cases h
    | emit c =>
      refine ⟨fun h => ?_, fun h => ?_⟩
      · have h0 := ih.1 h
        simpa [doneCount, List.countP_cons, isDone] using h0
      · obtain ⟨cs, hcs, h0⟩ := ih.2 h
        refine ⟨.chunk c :: cs, by simp [hcs], ?_⟩
        simpa [doneCount, List.countP_cons, isDone] using h0

theorem flushTail_def (p : StreamParams) (buffer : List Char) :
    flushTail p buffer =
      if dataMarker.isPrefixOf (pyStrip buffer) then
        if ¬(pyStrip ((pyStrip buffer).drop 6)).isEmpty ∧
            pyStrip ((pyStrip buffer).drop 6) ≠ doneMarker then
          match jsonLoads (pyStrip ((pyStrip buffer).drop 6)) with
          | some v =>
            match mkChunkCore p v true with
            | .ok c => ⟨[.chunk c, .done], false⟩
            | .error _ => ⟨[], true⟩
          | none => ⟨[.done], false⟩
        else ⟨[.done], false⟩
      else ⟨[.done], false⟩ := rfl

theorem flushTail_shape (p : StreamParams) (b : List Char) :
    flushTail p b = ⟨[], true⟩ ∨ flushTail p b = ⟨[StreamOut.done], false⟩ ∨
      ∃ c, flushTail p b = ⟨[StreamOut.chunk c, StreamOut.done], false⟩ := by
  rw [flushTail_def]
  by_cases h1 : dataMarker.isPrefixOf (pyStrip b)
  · rw [if_pos h1]
    by_cases h2 : ¬(pyStrip ((pyStrip b).drop 6)).isEmpty ∧
        pyStrip ((pyStrip b).drop 6) ≠ doneMarker
    · rw [if_pos h2]
      cases hm : jsonLoads (pyStrip ((pyStrip b).drop 6)) with
      | none => right; left; rfl
      | some v =>
        cases hc : mkChunkCore p v true with
        | ok c => right; right; exact ⟨c, by simp [hc]⟩
        | error e => left; simp [hc]
    · rw [if_neg h2]; right; left; rfl
  · rw [if_neg h1]; right; left; rfl

theorem runFrags_sentinel (p : StreamParams) (fs : List (List Char)) :
    ∀ buffer, (runFrags p fs buffer).crashed = false →
      ∃ cs, (runFrags p fs buffer).outs = cs ++ [StreamOut.done] ∧ doneCount cs = 0 := by
  induction fs with
  | nil =>
    intro buffer h
    rw [runFrags_nil] at h ⊢
    rcases flushTail_shape p buffer with h1 | h1 | ⟨c, h1⟩
    · rw [h1] at h; cases h
    · rw [h1]; exact ⟨[], rfl, rfl⟩
    · rw [h1]; exact ⟨[.chunk c], rfl, rfl⟩
  | cons f fs ih =>
    intro buffer h
    by_cases hf : f.isEmpty
    · rw [runFrags_cons, if_pos hf] at h ⊢
      exact ih buffer h
    · cases hr : (processLines p (splitLines (buffer ++ f)).1).2 with
      | ran =>
        rw [runFrags_cons, if_neg hf, hr] at h ⊢
        obtain ⟨cs, hcs, h0⟩ := ih _ h
        refine ⟨(processLines p (splitLines (buffer ++ f)).1).1 ++ cs, ?_, ?_⟩
        · simp [hcs]
        · have hno := (processLines_done_shape p (splitLines (buffer ++ f)).1).1
            (by rw [hr]; intro hx; cases hx)
          simp [doneCount, List.countP_append] at hno h0 ⊢
          exact ⟨hno, h0⟩
      | done =>
        rw [runFrags_cons, if_neg hf, hr] at h ⊢
        exact (processLines_done_shape p (splitLines (buffer ++ f)).1).2 hr
      | crashed =>
        rw [runFrags_cons, if_neg hf, hr] at h
        cases h

theorem processLine_def (p : StreamParams) (raw : List Char) :
    processLine p raw =
      if (pyStrip raw).isEmpty ∨ ¬ dataMarker.isPrefixOf (pyStrip raw) then .skip
      else if pyStrip ((pyStrip raw).drop 6) = doneMarker then .done
      else
        match jsonLoads (pyStrip ((pyStrip raw).drop 6)) with
        | none => .skip
        | some v =>
          match mkChunkCore p v false with
          | .ok c => .emit c
          | .error _ => .crash := rfl

theorem processLine_emit_inv (p : StreamParams) (raw : List Char) (c : OpenAIChunk)
    (h : processLine p raw = .emit c) :
    ∃ v, jsonLoads (pyStrip ((pyStrip raw).drop 6)) = some v ∧
      wellShapedEvent v = true ∧ c = chunkSpec p v false := by
  rw [processLine_def] at h
  by_cases h1 : (pyStrip raw).isEmpty ∨ ¬ dataMarker.isPrefixOf (pyStrip raw)
  · rw [if_pos h1] at h; cases h
  · rw [if_neg h1] at h
    by_cases h2 : pyStrip ((pyStrip raw).drop 6) = doneMarker
    · rw [if_pos h2] at h; cases h
    · rw [if_neg h2] at h
      cases hm : jsonLoads (pyStrip ((pyStrip raw).drop 6)) with
      | none => rw [hm] at h; cases h
      | some v =>
        simp only [hm] at h
        cases hc : mkChunkCore p v false with
        | ok c2 =>
          simp only [hc] at h
          obtain ⟨hw, hcs⟩ := mkChunkCore_ok_inv p v false c2 hc
          cases h
          exact ⟨v, rfl, hw, hcs⟩
        | error e => simp only [hc] at h; cases h

theorem processLines_chunk_inv (p : StreamParams) (ls : List (List Char)) (c : OpenAIChunk)
    (h : StreamOut.chunk c ∈ (processLines p ls).1) :
    ∃ l, processLine p l = .emit c := by
  induction ls with
  | nil => cases h
  | cons l ls ih =>
    rw [processLines_cons] at h
    cases hl : processLine p l with
    | skip => rw [hl] at h; exact ih h
    | done => rw [hl] at h; simp at h
    | crash => rw [hl] at h; cases h
    | emit c2 =>
      rw [hl] at h
      rcases List.mem_cons.mp h with h1 | h2
      · injection h1 with h3
        exact ⟨l, by rw [hl, h3]⟩
      · exact ih h2

theorem flushTail_chunk_inv (p : StreamParams) (b : List Char) (c : OpenAIChunk)
    (h : StreamOut.chunk c ∈ (flushTail p b).outs) :
    ∃ v, wellShapedEvent v = true ∧ c = chunkSpec p v true := by
  rw [flushTail_def] at h
  by_cases h1 : dataMarker.isPrefixOf (pyStrip b)
  · rw [if_pos h1] at h
    by_cases h2 : ¬(pyStrip ((pyStrip b).drop 6)).isEmpty ∧
        pyStrip ((pyStrip b).drop 6) ≠ doneMarker
    · rw [if_pos h2] at h
      cases hm : jsonLoads (pyStrip ((pyStrip b).drop 6)) with
      | none => rw [hm] at h; simp at h
      | some v =>
        simp only [hm] at h
        cases hc : mkChunkCore p v true with
        | ok c2 =>
          simp only [hc] at h
          obtain ⟨hw, hcs⟩ := mkChunkCore_ok_inv p v true c2 hc
          rcases List.mem_cons.mp h with h3 | h3
          · injection h3 with h4
            exact ⟨v, hw, h4 ▸ hcs⟩
          · simp at h3
        | error e => simp only [hc] at h; cases h
    · rw [if_neg h2] at h; simp at h
  · rw [if_neg h1] at h; simp at h

theorem runFrags_chunk_inv (p : StreamParams) (fs : List (List Char)) :
    ∀ buffer c, StreamOut.chunk c ∈ (runFrags p fs buffer).outs →
      ChunkFromEvent p c := by
  induction fs with
  | nil =>
    intro buffer c h
    rw [runFrags_nil] at h
    obtain ⟨v, hw, hc⟩ := flushTail_chunk_inv p buffer c h
    exact ⟨v, true, hw, hc⟩
  | cons f fs ih =>
    intro buffer c h
    by_cases hf : f.isEmpty
    · rw [runFrags_cons, if_pos hf] at h
      exact ih buffer c h
    · cases hr : (processLines p (splitLines (buffer ++ f)).1).2 with
      | ran =>
        rw [runFrags_cons, if_neg hf, hr] at h
        rcases List.mem_append.mp h with h1 | h1
        · obtain ⟨l, hl⟩ := processLines_chunk_inv p _ c h1
          obtain ⟨v, _, hw, hc⟩ := processLine_emit_inv p l c hl
          exact ⟨v, false, hw, hc⟩
        · exact ih _ c h1
      | done =>
        rw [runFrags_cons, if_neg hf, hr] at h
        obtain ⟨l, hl⟩ := processLines_chunk_inv p _ c h
        obtain ⟨v, _, hw, hc⟩ := processLine_emit_inv p l c hl
        exact ⟨v, false, hw, hc⟩
      | crashed =>
        rw [runFrags_cons, if_neg hf, hr] at h
        obtain ⟨l, hl⟩ := processLines_chunk_inv p _ c h
        obtain ⟨v, _, hw, hc⟩ := processLine_emit_inv p l c hl
        exact ⟨v, false, hw, hc⟩

theorem isJsonObj_obj (w : JsonValue) (h : isJsonObj w = true) :
    ∃ fs, w = JsonValue.obj fs := by
  cases w with
  | obj fs => exact ⟨fs, rfl⟩
  | null => simp [isJsonObj] at h
  | bool b => simp [isJsonObj] at h
  | num q => simp [isJsonObj] at h
  | str s => simp [isJsonObj] at h
  | arr xs => simp [isJsonObj] at h
  | nan => simp [isJsonObj] at h
  | inf n => simp [isJsonObj] at h

theorem choices_shape (C : JsonValue)
    (h1 : (match C with
           | JsonValue.arr (JsonValue.obj fs :: _) =>
             (match lookupLast fs (("message").data) with
              | some m => isJsonObj m
              | none => true)
           | c => !pyTruthy c) = true)
    (ht : pyTruthy C = true) :
    ∃ fs0 rest mf, C = JsonValue.arr (JsonValue.obj fs0 :: rest) ∧
      (lookupLast fs0 (("message").data)).getD (JsonValue.obj []) = JsonValue.obj mf := by
  cases C with
  | arr items =>
    cases items with
    | nil => simp [pyTruthy] at ht
    | cons c0 rest =>
      cases c0 with
      | obj fs0 =>
        cases hmsg : lookupLast fs0 (("message").data) with
        | none => exact ⟨fs0, rest, [], rfl, by simp [hmsg]⟩
        | some m =>
          obtain ⟨mf, rfl⟩ := isJsonObj_obj m (by simpa [hmsg] using h1)
          exact ⟨fs0, rest, mf, rfl, by simp [hmsg]⟩
      | null => simp [pyTruthy] at h1
      | bool b => simp [pyTruthy] at h1
      | num q => simp [pyTruthy] at h1
      | str s => simp [pyTruthy] at h1
      | arr xs => simp [pyTruthy] at h1
      | nan => simp [pyTruthy] at h1
      | inf n => simp [pyTruthy] at h1
  | null => simp [pyTruthy] at ht
  | bool b => simp_all [pyTruthy]
  | num q => simp_all [pyTruthy]
  | str s => simp_all [pyTruthy]
  | obj fs => simp_all [pyTruthy]
  | nan => simp [pyTruthy] at h1
  | inf n => simp [pyTruthy] at h1

theorem transform_ok_of_wellShaped (v : JsonValue) (rm fid : List Char) (ts : Int)
    (h : wellShapedBody v = true) :
    transform_response_to_openai v rm fid ts = .ok (responseSpec v rm fid ts) := by
  cases v with
  | obj fields =>
    simp only [wellShapedBody, jLookup, Bool.and_eq_true] at h
    obtain ⟨h1, h2⟩ := h
    obtain ⟨uf, hu⟩ := isJsonObj_obj _ h2
    simp only [transform_response_to_openai, pyGet, Bind.bind, Except.bind,
      Pure.pure, Except.pure, responseSpec, contentSpec, usageSpec, jLookup]
    by_cases ht : pyTruthy ((lookupLast fields (("choices").data)).getD (.arr [])) = true
    · obtain ⟨fs0, rest, mf, hc, hmsg⟩ := choices_shape _ h1 ht
      rw [if_pos ht]
      simp [hc, hmsg, hu, pyIndex0, pyGet, jLookup]
    · rw [if_neg ht]
      cases hcv : (lookupLast fields (("choices").data)).getD (.arr []) with
      | arr items =>
        cases items with
        | nil => simp [hcv, hu, pyGet, jLookup]
        | cons c0 rest => rw [hcv] at ht; simp [pyTruthy] at ht
      | null => simp [hcv, hu, pyGet, jLookup]
      | bool b => simp [hcv, hu, pyGet, jLookup]
      | num q => simp [hcv, hu, pyGet, jLookup]
      | str s => simp [hcv, hu, pyGet, jLookup]
      | obj fs2 => simp [hcv, hu, pyGet, jLookup]
      | nan => simp [hcv, hu, pyGet, jLookup]
      | inf n => simp [hcv, hu, pyGet, jLookup]
  | null => simp [wellShapedBody] at h
  | bool b => simp [wellShapedBody] at h
  | num q => simp [wellShapedBody] at h
  | str s => simp [wellShapedBody] at h
  | arr items => simp [wellShapedBody] at h
  | nan => simp [wellShapedBody] at h
  | inf n => simp [wellShapedBody] at h

theorem except_bind_ok_inv {α β : Type} {x : Except Unit α} {f : α → Except Unit β} {r : β}
    (h : Bind.bind x f = Except.ok r) : ∃ a, x = .ok a ∧ f a = .ok r := by
  cases x with
  | ok a => exact ⟨a, rfl, h⟩
  | error e => simp [Bind.bind, Except.bind] at h

theorem transform_ok_model (v : JsonValue) (rm fid : List Char) (ts : Int) (r : OpenAIResponse)
    (h : transform_response_to_openai v rm fid ts = .ok r) : r.model = rm := by
  simp only [transform_response_to_openai] at h
  obtain ⟨c1, _, h⟩ := except_bind_ok_inv h
  by_cases hpt : pyTruthy c1 = true
  · rw [if_pos hpt] at h
    obtain ⟨a1, _, h⟩ := except_bind_ok_inv h
    obtain ⟨a2, _, h⟩ := except_bind_ok_inv h
    obtain ⟨a3, _, h⟩ := except_bind_ok_inv h
    obtain ⟨a4, _, h⟩ := except_bind_ok_inv h
    obtain ⟨a5, _, h⟩ := except_bind_ok_inv h
    obtain ⟨a6, _, h⟩ := except_bind_ok_inv h
    obtain ⟨a7, _, h⟩ := except_bind_ok_inv h
    obtain ⟨a8, _, h⟩ := except_bind_ok_inv h
    obtain ⟨a9, _, h⟩ := except_bind_ok_inv h
    simp only [Pure.pure, Except.pure] at h
    cases h
    rfl
  · rw [if_neg hpt] at h
    obtain ⟨a1, _, h⟩ := except_bind_ok_inv h
    obtain ⟨a2, _, h⟩ := except_bind_ok_inv h
    obtain ⟨a3, _, h⟩ := except_bind_ok_inv h
    obtain ⟨a4, _, h⟩ := except_bind_ok_inv h
    obtain ⟨a5, _, h⟩ := except_bind_ok_inv h
    obtain ⟨a6, _, h⟩ := except_bind_ok_inv h
    obtain ⟨a7, _, h⟩ := except_bind_ok_inv h
    simp only [Pure.pure, Except.pure] at h
    cases h
    rfl

/-- C1 (amended): unless the generator aborts with an uncaught exception
(possible when a decoded event is not a JSON object, or its truthy
`choices` value is not a list with an object first element — see the
counterexample), a streaming exchange emits the sentinel termination
line exactly once and as its last output, regardless of how many events
were seen and whether the stream ended with an explicit terminator or
by connection close; and a backend stream consisting solely of the
terminator yields zero content chunks and exactly one termination
line. -/
theorem C1_sentinel_exactly_once_and_last (p : StreamParams) (frags : List (List Nat))
    (h : (bridge_request_stream_run p frags).crashed = false) :
    doneCount (bridge_request_stream_run p frags).outs = 1 ∧
    (bridge_request_stream_run p frags).outs.getLast? = some StreamOut.done ∧
    bridge_request_stream_run p [strBytes "data: [DONE]\n"] =
      ⟨[StreamOut.done], false⟩ := by
  obtain ⟨cs, hcs, h0⟩ := runFrags_sentinel p (frags.map decodeUtf8Replace) [] h
  refine ⟨?_, ?_, rfl⟩
  · show doneCount (runFrags p (frags.map decodeUtf8Replace) []).outs = 1
    rw [hcs]
    simp only [doneCount] at h0 ⊢
    simp [List.countP_append, List.countP_cons, h0, isDone]
  · show (runFrags p (frags.map decodeUtf8Replace) []).outs.getLast? = some StreamOut.done
    rw [hcs]
    exact List.getLast?_concat _

/-- Witness for C1 at a concrete non-aborting stream. -/
theorem C1_sentinel_exactly_once_and_last_witness :
    doneCount (bridge_request_stream_run ⟨("chatcmpl-w1").data, 7, ("m1").data⟩
        [strBytes "data: \x7b\x7d\n"]).outs = 1 ∧
    (bridge_request_stream_run ⟨("chatcmpl-w1").data, 7, ("m1").data⟩
        [strBytes "data: \x7b\x7d\n"]).outs.getLast? = some StreamOut.done ∧
    bridge_request_stream_run ⟨("chatcmpl-w1").data, 7, ("m1").data⟩
        [strBytes "data: [DONE]\n"] = ⟨[StreamOut.done], false⟩ :=
  C1_sentinel_exactly_once_and_last _ _ (by rfl)

/-- C1 counterexample: the event line `data: 123` decodes to a non-dict;
the attribute access raises an uncaught exception, the generator aborts
mid-stream, and no termination line is ever emitted — refuting the
unconditional claim that the sentinel is always emitted exactly once. -/
theorem C1_counterexample :
    bridge_request_stream_run ⟨("chatcmpl-x1").data, 7, ("m1").data⟩
        [strBytes "data: 123\n"] = ⟨[], true⟩ ∧
    doneCount ([] : List StreamOut) = 0 := ⟨rfl, rfl⟩

/-- C2: every chunk emitted on the streaming path carries the caller's
requested model, and every successfully produced non-streaming response
carries the caller's requested model — never the backend's identifier,
which appears nowhere in the output construction. -/
theorem C2_requested_model_everywhere :
    (∀ (p : StreamParams) (frags : List (List Nat)) (c : OpenAIChunk),
       StreamOut.chunk c ∈ (bridge_request_stream_run p frags).outs →
       c.model = p.request_model) ∧
    (∀ (v : JsonValue) (rm fid : List Char) (ts : Int) (r : OpenAIResponse),
       transform_response_to_openai v rm fid ts = .ok r → r.model = rm) := by
  constructor
  · intro p frags c h
    obtain ⟨v, fl, hw, rfl⟩ := runFrags_chunk_inv p (frags.map decodeUtf8Replace) [] c h
    rfl
  · intro v rm fid ts r h
    exact transform_ok_model v rm fid ts r h

/-- Parameters of the C2 witness exchange. -/
def pW2 : StreamParams := ⟨("chatcmpl-w2").data, 3, ("modelW2").data⟩

/-- The chunk emitted by the C2 witness exchange. -/
def cW2 : OpenAIChunk :=
  ⟨.str (("chatcmpl-w2").data), ("chat.completion.chunk").data, .num 3,
   ("modelW2").data, .obj [], .null⟩

/-- The response produced by the C2 witness translation. -/
def rW2 : OpenAIResponse :=
  ⟨.str (("fid2").data), ("chat.completion").data, .num 0, ("mW2b").data,
   .str [], ("stop").data, .num 0, .num 0, .num 0⟩

/-- Witness for C2 at one concrete chunk and one concrete response. -/
theorem C2_requested_model_everywhere_witness :
    cW2.model = pW2.request_model ∧ rW2.model = ("mW2b").data :=
  ⟨C2_requested_model_everywhere.1 pW2
      [strBytes "data: \x7b\x7d\n", strBytes "data: [DONE]\n"] cW2
      (List.mem_cons_self _ _),
   C2_requested_model_everywhere.2 (JsonValue.obj []) (("mW2b").data) (("fid2").data) 0 rW2
      (by rfl)⟩

/-- C3 (amended): over decoded text — equivalently, for byte-fragment
boundaries that do not split a multi-byte UTF-8 sequence — the
re-framer's output depends only on the concatenation of the fragments:
any two fragmentations of the same text yield identical output. -/
theorem C3_fragmentation_invariant_text (p : StreamParams)
    (frags1 frags2 : List (List Char)) (h : frags1.flatten = frags2.flatten) :
    bridge_request_stream_text p frags1 = bridge_request_stream_text p frags2 := by
  rw [stream_text_eq_runOnText, stream_text_eq_runOnText, h]

/-- Witness for C3: a mid-line split of a concrete stream. -/
theorem C3_fragmentation_invariant_text_witness :
    bridge_request_stream_text ⟨("chatcmpl-w3").data, 5, ("m3").data⟩
        [("data: \x7b\x7d\n").data] =
      bridge_request_stream_text ⟨("chatcmpl-w3").data, 5, ("m3").data⟩
        [("data: ").data, ("\x7b\x7d\n").data] :=
  C3_fragmentation_invariant_text _ _ _ (by rfl)

/-- Parameters of the C3 counterexample exchange. -/
def pX3 : StreamParams := ⟨("chatcmpl-x3").data, 5, ("m3x").data⟩

/-- One-fragment byte stream whose event id holds the two-byte UTF-8
character é. -/
def c3bytesA : List (List Nat) :=
  [strBytes "data: \x7b\"id\":\"" ++ [0xC3, 0xA9] ++ strBytes "\"\x7d\n"]

/-- The same bytes split between the two bytes of é. -/
def c3bytesB : List (List Nat) :=
  [strBytes "data: \x7b\"id\":\"" ++ [0xC3], [0xA9] ++ strBytes "\"\x7d\n"]

/-- The emitted id strings of a run, a discriminating projection. -/
def outIdStrs (r : RunResult) : List (List Char) :=
  r.outs.map (fun o =>
    match o with
    | .chunk c =>
      match c.id with
      | .str s => s
      | _ => []
    | .done => [])

/-- C3 counterexample: the same backend byte stream split inside a
two-byte UTF-8 character yields a different chunk — per-fragment
replacement decoding corrupts the split character — refuting the
byte-level fragmentation-invariance claim. -/
theorem C3_counterexample :
    c3bytesA.flatten = c3bytesB.flatten ∧
    bridge_request_stream_run pX3 c3bytesA ≠ bridge_request_stream_run pX3 c3bytesB := by
  refine ⟨by decide, fun h => ?_⟩
  have h2 := congrArg outIdStrs h
  exact absurd h2 (by decide)

/-- C4 (amended): for a complete extracted non-terminator `"data: "`
line, a JSON-decode failure skips the line and the exchange continues
(the concrete two-line stream below still emits the later well-formed
event's chunk), while a decode success on a well-shaped event emits
exactly one chunk whose `delta` comes from the first element of the
(defaulted) `choices` value, whose `finish_reason` is the event's
top-level `finish_reason` (null when absent) — not, as the claim
states, the first choice's — and whose `id`/`created` default to the
exchange-local generated values. -/
theorem C4_line_mapping (p : StreamParams) (raw : List Char)
    (hpre : dataMarker.isPrefixOf (pyStrip raw))
    (hnd : pyStrip ((pyStrip raw).drop 6) ≠ doneMarker) :
    (jsonLoads (pyStrip ((pyStrip raw).drop 6)) = none → processLine p raw = .skip) ∧
    (∀ v, jsonLoads (pyStrip ((pyStrip raw).drop 6)) = some v → wellShapedEvent v = true →
      processLine p raw = .emit (chunkSpec p v false)) ∧
    bridge_request_stream_run p
        [strBytes "data: notjson\ndata: \x7b\"a\":1\x7d\ndata: [DONE]\n"] =
      ⟨[StreamOut.chunk (chunkSpec p (JsonValue.obj [((("a").data), JsonValue.num 1)]) false),
        StreamOut.done], false⟩ := by
  have hne : (pyStrip raw).isEmpty = false := by
    cases hps : pyStrip raw with
    | nil => rw [hps] at hpre; simp [dataMarker] at hpre
    | cons c cs => rfl
  refine ⟨?_, ?_, ?_⟩
  · intro hm
    rw [processLine_def, if_neg (by simp [hne, hpre]), if_neg hnd]
    simp only [hm]
  · intro v hm hw
    rw [processLine_def, if_neg (by simp [hne, hpre]), if_neg hnd]
    simp only [hm, mkChunkCore_ok_of_wellShaped p v false hw]
  · rfl

/-- Witness for C4: a malformed then a well-formed line, and the mapped
chunk of a concrete event. -/
theorem C4_line_mapping_witness :
    processLine ⟨("chatcmpl-w4").data, 2, ("m4").data⟩ (("data: \x7b\"id\":\"zz\"\x7d").data) =
      .emit (chunkSpec ⟨("chatcmpl-w4").data, 2, ("m4").data⟩
        (JsonValue.obj [((("id").data), JsonValue.str (("zz").data))]) false) :=
  (C4_line_mapping ⟨("chatcmpl-w4").data, 2, ("m4").data⟩
      (("data: \x7b\"id\":\"zz\"\x7d").data) (by decide) (by decide)).2.1
    (JsonValue.obj [((("id").data), JsonValue.str (("zz").data))]) (by rfl) (by rfl)

/-- Parameters of the C4 counterexample exchange. -/
def pX4 : StreamParams := ⟨("chatcmpl-x4").data, 9, ("m4x").data⟩

/-- The C4 counterexample line: `finish_reason` sits in `choices[0]`. -/
def lineX4 : List Char :=
  ("data: \x7b\"choices\":[\x7b\"delta\":\x7b\x7d,\"finish_reason\":\"stop\"\x7d]\x7d").data

/-- The chunk the code actually emits for `lineX4`. -/
def chunkX4 : OpenAIChunk :=
  ⟨.str (("chatcmpl-x4").data), ("chat.completion.chunk").data, .num 9, ("m4x").data,
   .obj [], .null⟩

/-- C4 counterexample: the backend event carries
`choices[0].finish_reason = "stop"`, yet the emitted chunk's
finish_reason is null — the code reads `finish_reason` from the event's
top level, not from the first element of `choices` as the claim
states. -/
theorem C4_counterexample :
    processLine pX4 lineX4 = LineResult.emit chunkX4 ∧
    chunkX4.finish_reason = JsonValue.null ∧
    (match jsonLoads (pyStrip ((pyStrip lineX4).drop 6)) with
     | some v =>
       match (jLookup v (("choices").data)).getD (.arr []) with
       | .arr (c0 :: _) => jLookup c0 (("finish_reason").data)
       | _ => none
     | none => none) = some (JsonValue.str (("stop").data)) :=
  ⟨rfl, rfl, rfl⟩

/-- C5 (amended): when the stream ends by connection close with the
loop having run through all lines without a terminator and without
aborting, and the buffered remainder is a well-formed non-terminator
`"data: "` line whose decoded event is well-shaped, the re-framer
emits it as one final chunk with a forced-null finish_reason and then
the sentinel, exactly once, as the very last output.  (An ill-shaped
decoded remainder instead aborts the generator with no sentinel at
all — see the counterexample.) -/
theorem C5_flush_on_close (p : StreamParams) (frags : List (List Char))
    (outs : List StreamOut) (v : JsonValue)
    (hloop : processLines p (splitLines frags.flatten).1 = (outs, LinesStop.ran))
    (hpre : dataMarker.isPrefixOf (pyStrip (splitLines frags.flatten).2))
    (hne : ¬(pyStrip ((pyStrip (splitLines frags.flatten).2).drop 6)).isEmpty)
    (hnd : pyStrip ((pyStrip (splitLines frags.flatten).2).drop 6) ≠ doneMarker)
    (hjson : jsonLoads (pyStrip ((pyStrip (splitLines frags.flatten).2).drop 6)) = some v)
    (hws : wellShapedEvent v = true) :
    bridge_request_stream_text p frags =
      ⟨outs ++ [StreamOut.chunk (chunkSpec p v true), StreamOut.done], false⟩ ∧
    (chunkSpec p v true).finish_reason = JsonValue.null ∧
    doneCount (outs ++ [StreamOut.chunk (chunkSpec p v true), StreamOut.done]) = 1 := by
  have hflush : flushTail p (splitLines frags.flatten).2 =
      ⟨[.chunk (chunkSpec p v true), .done], false⟩ := by
    rw [flushTail_def, if_pos hpre, if_pos ⟨hne, hnd⟩]
    simp only [hjson, mkChunkCore_ok_of_wellShaped p v true hws]
  have h0 : doneCount outs = 0 := by
    have hsh := (processLines_done_shape p (splitLines frags.flatten).1).1
    rw [hloop] at hsh
    exact hsh (by intro hx; cases hx)
  refine ⟨?_, rfl, ?_⟩
  · rw [stream_text_eq_runOnText, runOnText_def, hloop, hflush]
  · simp only [doneCount] at h0 ⊢
    simp [List.countP_append, List.countP_cons, h0, isDone]

/-- Parameters of the C5 witness exchange. -/
def pW5 : StreamParams := ⟨("chatcmpl-w5").data, 4, ("m5").data⟩

/-- The decoded event buffered at close in the C5 witness. -/
def vW5 : JsonValue := .obj [((("id").data), JsonValue.str (("A").data))]

/-- Witness for C5: a stream closing right after an unterminated event
line still yields that event's chunk and then the sentinel. -/
theorem C5_flush_on_close_witness :
    bridge_request_stream_text pW5 [("data: \x7b\"id\":\"A\"\x7d").data] =
      ⟨[] ++ [StreamOut.chunk (chunkSpec pW5 vW5 true), StreamOut.done], false⟩ :=
  (C5_flush_on_close pW5 [("data: \x7b\"id\":\"A\"\x7d").data] [] vW5
    rfl (by decide) (by decide) (by decide) rfl rfl).1

/-- Parameters of the C5 counterexample exchange. -/
def pX5 : StreamParams := ⟨("chatcmpl-x5").data, 6, ("m5x").data⟩

/-- C5 counterexample: the stream closes with the buffered remainder
`data: "x"` — a syntactically well-formed, non-terminator event line —
but its decoded value is not a dict, so the mapping raises, the
generator aborts, and neither the final chunk nor the sentinel is
emitted, refuting the claim's "in all cases" sentinel guarantee. -/
theorem C5_counterexample :
    jsonLoads (("\"x\"").data) = some (JsonValue.str (("x").data)) ∧
    bridge_request_stream_text pX5 [("data: \"x\"").data] = ⟨[], true⟩ :=
  ⟨rfl, rfl⟩

/-- C6 (amended): credential resolution equals the rule — trimmed
direct header when it trims nonempty; else the trimmed remainder of a
`"Bearer "`-prefixed authorization value whenever the prefix is
present, even if the remainder trims to the empty string; else the
default when nonempty; else the Unauthorized error naming both
locations.  Failure happens exactly when the direct header trims
empty or is absent, the authorization value lacks the prefix, and the
default is empty — so a present-but-blank bearer value succeeds with
an empty credential, contrary to the claim. -/
theorem C6_credential_resolution (authorization x_api_key : Option (List Char))
    (dflt : List Char) :
    get_api_key authorization x_api_key dflt =
      resolve_credential_spec authorization x_api_key dflt ∧
    ((∃ e, get_api_key authorization x_api_key dflt = .error e) ↔
      ((x_api_key.map pyStrip).getD []).isEmpty = true ∧
      ¬(("Bearer ").data).isPrefixOf (authorization.getD []) = true ∧
      dflt.isEmpty = true) := by
  have hmap : ((x_api_key.map pyStrip).getD []) = pyStrip (x_api_key.getD []) := by
    cases x_api_key <;> rfl
  have hd : optNonEmptyAfterStrip x_api_key = !(pyStrip (x_api_key.getD [])).isEmpty := by
    cases x_api_key with
    | none => rfl
    | some k =>
      cases k with
      | nil => rfl
      | cons a as => simp [optNonEmptyAfterStrip]
  have hb : optHasBearer authorization =
      (("Bearer ").data).isPrefixOf (authorization.getD []) := by
    cases authorization with
    | none => rfl
    | some a =>
      cases a with
      | nil => rfl
      | cons c cs => simp [optHasBearer]
  constructor
  · rw [get_api_key, resolve_credential_spec, hmap, hd, hb]
    cases h1 : (pyStrip (x_api_key.getD [])).isEmpty <;>
      cases h2 : (("Bearer ").data).isPrefixOf (authorization.getD []) <;>
        cases h3 : dflt.isEmpty <;>
          simp
  · rw [get_api_key, hd, hb, hmap]
    cases h1 : (pyStrip (x_api_key.getD [])).isEmpty <;>
      cases h2 : (("Bearer ").data).isPrefixOf (authorization.getD []) <;>
        cases h3 : dflt.isEmpty <;>
          simp

/-- C6 counterexample: with `authorization = "Bearer "` (prefix present,
blank remainder), no direct header, and an empty default, none of the
three sources yields a nonempty string, yet resolution succeeds — and
returns the empty credential — instead of failing as the claim
requires. -/
theorem C6_counterexample :
    get_api_key (some (("Bearer ").data)) none [] = .ok [] := rfl

/-- C7 (amended): on a status other than 200/201, both backend calls
fail with the identical upstream status and the full, untruncated error
body (with `"Bridge error"` substituted for an empty body); the
500-character truncation of the claim exists only on the log line. -/
theorem C7_backend_status_error (status : Nat) (err_text : List Char) :
    bridge_request_json_check status err_text = backend_error_spec status err_text ∧
    bridge_request_stream_check status err_text = backend_error_spec status err_text ∧
    (∀ e, bridge_request_json_check status err_text = some e →
      e.status = status ∧ (err_text ≠ [] → e.detail = err_text)) := by
  have hspec : bridge_request_json_check status err_text = backend_error_spec status err_text := by
    rw [bridge_request_json_check, backend_error_spec]
    by_cases h : status = 200 ∨ status = 201
    · rcases h with h | h <;> simp [h]
    · rw [not_or] at h
      simp [h.1, h.2]
  refine ⟨hspec, hspec, ?_⟩
  intro e he
  rw [bridge_request_json_check] at he
  by_cases h : status ≠ 200 ∧ status ≠ 201
  · rw [if_pos h] at he
    injection he with he2
    subst he2
    refine ⟨rfl, fun hne => ?_⟩
    simp [List.isEmpty_iff, hne]
  · rw [if_neg h] at he
    cases he

/-- Witness for C7 at a concrete failing status. -/
theorem C7_backend_status_error_witness :
    (⟨500, ("oops").data⟩ : HttpError).status = 500 ∧
    (⟨500, ("oops").data⟩ : HttpError).detail = ("oops").data :=
  ⟨((C7_backend_status_error 500 (("oops").data)).2.2 ⟨500, ("oops").data⟩ (by rfl)).1,
   ((C7_backend_status_error 500 (("oops").data)).2.2 ⟨500, ("oops").data⟩ (by rfl)).2
     (by decide)⟩

/-- C7 counterexample: a 501-character error body reaches the
`HTTPException` detail in full — longer than the claimed ≤500-character
excerpt; the `[:500]` truncation is applied only to the log message. -/
theorem C7_counterexample :
    bridge_request_json_check 502 (List.replicate 501 'a') =
      some ⟨502, List.replicate 501 'a'⟩ ∧
    500 < (List.replicate 501 'a').length := by
  refine ⟨?_, by simp⟩
  rw [bridge_request_json_check, if_pos (by omega)]
  simp

/-- C8 (amended): the backend payload holds the messages reduced to
role/content pairs (any `name` dropped), the fixed backend model
identifier regardless of the requested model, a stream flag matching
the caller's streaming intent, and — of the request's sampling
parameters — exactly `temperature` and `max_tokens`, present iff
non-null; no other request field (`top_p`, `n`, `stop`, the penalties,
`user`) is ever forwarded. -/
theorem C8_payload_construction (bridge_model : List Char) (req : ChatCompletionRequest) :
    (create_chat_completion_payload bridge_model req).messages =
      req.messages.map (fun m => BridgeMessage.mk m.role m.content) ∧
    (create_chat_completion_payload bridge_model req).model = bridge_model ∧
    (create_chat_completion_payload bridge_model req).stream = optBoolTruthy req.stream ∧
    (create_chat_completion_payload bridge_model req).temperature = req.temperature ∧
    (create_chat_completion_payload bridge_model req).max_tokens = req.max_tokens ∧
    ((("temperature").data) ∈ payloadKeys (create_chat_completion_payload bridge_model req) ↔
      req.temperature ≠ none) ∧
    ((("max_tokens").data) ∈ payloadKeys (create_chat_completion_payload bridge_model req) ↔
      req.max_tokens ≠ none) ∧
    (∀ k ∈ payloadKeys (create_chat_completion_payload bridge_model req),
      k ∈ [("messages").data, ("model").data, ("stream").data,
           ("temperature").data, ("max_tokens").data]) := by
  have hmain : create_chat_completion_payload bridge_model req =
      ⟨req.messages.map (fun m => BridgeMessage.mk m.role m.content), bridge_model,
       optBoolTruthy req.stream, req.temperature, req.max_tokens, []⟩ := by
    rw [create_chat_completion_payload]
    by_cases hs : optBoolTruthy req.stream = true
    · rw [if_pos hs, build_bridge_payload, hs]
      rfl
    · rw [if_neg hs, build_bridge_payload]
      simp only [Bool.not_eq_true] at hs
      rw [hs]
      rfl
  rw [hmain]
  refine ⟨rfl, rfl, rfl, rfl, rfl, ?_, ?_, ?_⟩
  · cases req.temperature <;> cases req.max_tokens <;> simp [payloadKeys]
  · cases req.temperature <;> cases req.max_tokens <;> simp [payloadKeys]
  · intro k hk
    cases ht : req.temperature with
    | none =>
      cases hmx : req.max_tokens with
      | none =>
        simp [payloadKeys, ht, hmx] at hk
        rcases hk with rfl | rfl | rfl <;> decide
      | some mv =>
        simp [payloadKeys, ht, hmx] at hk
        rcases hk with rfl | rfl | rfl | rfl <;> decide
    | some tv =>
      cases hmx : req.max_tokens with
      | none =>
        simp [payloadKeys, ht, hmx] at hk
        rcases hk with rfl | rfl | rfl | rfl <;> decide
      | some mv =>
        simp [payloadKeys, ht, hmx] at hk
        rcases hk with rfl | rfl | rfl | rfl | rfl <;> decide

/-- The C8 witness request: streaming, default sampling values. -/
def reqW8 : ChatCompletionRequest :=
  ⟨("gpt").data, [⟨("user").data, ("hi").data, some (("bob").data)⟩],
   some (mkRat 7 10), some (mkRat 9 10), some 1, some true, none, none,
   some 0, some 0, none⟩

/-- Witness for C8 at a concrete request. -/
theorem C8_payload_construction_witness :
    (create_chat_completion_payload (("bmW").data) reqW8).messages =
      reqW8.messages.map (fun m => BridgeMessage.mk m.role m.content) ∧
    (("model").data) ∈ [("messages").data, ("model").data, ("stream").data,
        ("temperature").data, ("max_tokens").data] :=
  ⟨(C8_payload_construction (("bmW").data) reqW8).1,
   (C8_payload_construction (("bmW").data) reqW8).2.2.2.2.2.2.2 (("model").data)
     (by decide)⟩

/-- The C8 counterexample request: a non-null `top_p`. -/
def reqX8 : ChatCompletionRequest :=
  ⟨("gpt").data, [], some (mkRat 7 10), some (mkRat 9 10), some 1, some false,
   none, none, some 0, some 0, none⟩

/-- C8 counterexample: the request carries a non-null `top_p`, yet the
constructed payload has no `top_p` key — only `temperature` and
`max_tokens` are ever copied through, refuting "every non-null optional
sampling parameter of the request copied through". -/
theorem C8_counterexample :
    reqX8.top_p ≠ none ∧
    (("top_p").data) ∉ payloadKeys (create_chat_completion_payload (("bm").data) reqX8) := by
  refine ⟨by simp [reqX8], ?_⟩
  decide

/-- The spec's worked example body:
`{"choices":[{"message":{"content":"hello"}}],` followed by
`"usage":{"prompt_tokens":3,"completion_tokens":1,"total_tokens":4}}`. -/
def exBodyC9 : JsonValue :=
  .obj [((("choices").data),
          .arr [.obj [((("message").data),
                        .obj [((("content").data), .str (("hello").data))])]]),
        ((("usage").data),
          .obj [((("prompt_tokens").data), .num 3),
                ((("completion_tokens").data), .num 1),
                ((("total_tokens").data), .num 4)])]

/-- C9 (amended): for every well-shaped backend body — one on which the
translation completes without a type error — the translator produces
exactly the response given by the claim's field rules: content from the
first choice's message (else empty), usage defaulting to zero,
finish_reason always "stop", id/created falling back to fresh values;
and the spec's worked example yields content "hello", finish_reason
"stop" and usage totals 3/1/4. -/
theorem C9_response_translation (v : JsonValue) (rm fid : List Char) (ts : Int)
    (h : wellShapedBody v = true) :
    transform_response_to_openai v rm fid ts = .ok (responseSpec v rm fid ts) ∧
    (responseSpec v rm fid ts).finish_reason = ("stop").data ∧
    transform_response_to_openai exBodyC9 rm fid ts = .ok (responseSpec exBodyC9 rm fid ts) ∧
    (responseSpec exBodyC9 rm fid ts).content = .str (("hello").data) ∧
    (responseSpec exBodyC9 rm fid ts).finish_reason = ("stop").data ∧
    (responseSpec exBodyC9 rm fid ts).prompt_tokens = .num 3 ∧
    (responseSpec exBodyC9 rm fid ts).completion_tokens = .num 1 ∧
    (responseSpec exBodyC9 rm fid ts).total_tokens = .num 4 :=
  ⟨transform_ok_of_wellShaped v rm fid ts h, rfl,
   transform_ok_of_wellShaped exBodyC9 rm fid ts (by rfl), rfl, rfl, rfl, rfl, rfl⟩

/-- Witness for C9 at the worked example body. -/
theorem C9_response_translation_witness :
    transform_response_to_openai exBodyC9 (("m9").data) (("f9").data) 1 =
      .ok (responseSpec exBodyC9 (("m9").data) (("f9").data) 1) ∧
    (responseSpec exBodyC9 (("m9").data) (("f9").data) 1).content =
      .str (("hello").data) :=
  ⟨(C9_response_translation exBodyC9 (("m9").data) (("f9").data) 1 (by rfl)).1,
   (C9_response_translation exBodyC9 (("m9").data) (("f9").data) 1 (by rfl)).2.2.2.1⟩

/-- C9 counterexample: the backend JSON body `5` (valid JSON, not an
object) makes the translator raise an uncaught exception instead of
producing a PublicResponse, refuting "for every backend JSON body". -/
theorem C9_counterexample :
    jsonLoads (("5").data) = some (JsonValue.num 5) ∧
    transform_response_to_openai (JsonValue.num 5) (("m9x").data) (("f9x").data) 0 =
      .error () :=
  ⟨rfl, rfl⟩

/-- C10: every chunk of one streaming exchange is the image of a decoded
event under the field rules with the exchange's single fallback pair,
fixed after the handshake: whenever the event omits `id` (resp.
`created`), the chunk carries `p.chunkId` (resp. `p.created`) — hence
all fallback chunks of one exchange share the same id and created. -/
theorem C10_fallback_id_created_once (p : StreamParams) (frags : List (List Nat))
    (c : OpenAIChunk) (h : StreamOut.chunk c ∈ (bridge_request_stream_run p frags).outs) :
    ∃ v fl, wellShapedEvent v = true ∧ c = chunkSpec p v fl ∧
      (jLookup v (("id").data) = none → c.id = .str p.chunkId) ∧
      (jLookup v (("created").data) = none → c.created = .num (p.created : ℚ)) := by
  obtain ⟨v, fl, hw, rfl⟩ := runFrags_chunk_inv p (frags.map decodeUtf8Replace) [] c h
  refine ⟨v, fl, hw, rfl, ?_, ?_⟩
  · intro hid
    simp [chunkSpec, hid]
  · intro hcr
    simp [chunkSpec, hcr]

/-- Parameters of the C10 witness exchange. -/
def pW10 : StreamParams := ⟨("chatcmpl-w10").data, 11, ("m10").data⟩

/-- The chunk emitted by the C10 witness exchange (event `{}`). -/
def cW10 : OpenAIChunk :=
  ⟨.str (("chatcmpl-w10").data), ("chat.completion.chunk").data, .num 11,
   ("m10").data, .obj [], .null⟩

/-- Witness for C10 at a concrete event omitting both id and created. -/
theorem C10_fallback_id_created_once_witness :
    ∃ v fl, wellShapedEvent v = true ∧ cW10 = chunkSpec pW10 v fl ∧
      (jLookup v (("id").data) = none → cW10.id = .str pW10.chunkId) ∧
      (jLookup v (("created").data) = none → cW10.created = .num (pW10.created : ℚ)) :=
  C10_fallback_id_created_once pW10 [strBytes "data: \x7b\x7d\n"] cW10
    (List.mem_cons_self _ _)
